import Mathlib

/-!
Verification development for the `metaclass_registry` package
(auto-registration metaclass, lazy discovery store, package scanner,
registry cache layer).

The Python sources are embedded shallowly:

* Python classes are modelled by `PClass`: a name, a defining module,
  a flag recording whether `__abstractmethods__` is non-empty, and a
  finite attribute map (string-valued; `getattr(c, a, None)` becomes an
  `Option String` lookup, so an attribute explicitly set to `None`
  coincides with an absent attribute, exactly as `getattr` with a
  `None` default does).
* Python `dict` is modelled by an insertion-ordered association list
  with an overwriting insert (`dictInsert`), matching `d[k] = v`.
* Fallible code returns `Except String`; a Python `raise` is an
  `Except.error`, a `try/except` that swallows the exception is a
  `match` arm that continues with an `ok` result.
* `float` timestamps and mtimes are modelled by `ℚ`.
-/

/-! ## Python dictionaries as association lists -/

/-- `d.get(k)` / `d[k]` lookup on an insertion-ordered association list. -/
def dictLookup {α : Type} : List (String × α) → String → Option α
  | [], _ => none
  | (k, v) :: rest, key => if k = key then some v else dictLookup rest key

/-- `d[k] = v`: overwrite the binding for `k` if present, else append. -/
def dictInsert {α : Type} : List (String × α) → String → α → List (String × α)
  | [], k, v => [(k, v)]
  | (k1, v1) :: rest, k, v =>
      if k1 = k then (k, v) :: rest else (k1, v1) :: dictInsert rest k v

/-- `d.update(other)`: insert every binding of `xs` in order. -/
def dictInsertAll {α : Type} (m : List (String × α)) (xs : List (String × α)) :
    List (String × α) :=
  xs.foldl (fun acc p => dictInsert acc p.1 p.2) m

theorem dictLookup_dictInsert_self {α : Type} (m : List (String × α)) (k : String) (v : α) :
    dictLookup (dictInsert m k v) k = some v := by
  induction m with
  | nil => simp [dictInsert, dictLookup]
  | cons p rest ih =>
      by_cases h : p.1 = k
      · simp [dictInsert, dictLookup, h]
      · simp [dictInsert, dictLookup, h, ih]

theorem dictLookup_dictInsert_ne {α : Type} (m : List (String × α)) (k k' : String) (v : α)
    (h : k ≠ k') : dictLookup (dictInsert m k v) k' = dictLookup m k' := by
  induction m with
  | nil => simp [dictInsert, dictLookup, h]
  | cons p rest ih =>
      by_cases hp : p.1 = k
      · simp [dictInsert, dictLookup, hp, h]
      · simp [dictInsert, dictLookup, hp, ih]

theorem dictLookup_dictInsert_isSome {α : Type} (m : List (String × α)) (k k' : String)
    (v : α) (h : (dictLookup m k').isSome) :
    (dictLookup (dictInsert m k v) k').isSome := by
  by_cases hk : k = k'
  · subst hk; simp [dictLookup_dictInsert_self]
  · rwa [dictLookup_dictInsert_ne m k k' v hk]

/-! ## Classes and registry configuration (`core.py`) -/

/-- A Python class as the registration engine sees it: its declared name,
its `__module__`, whether `getattr(cls, '__abstractmethods__', None)` is
truthy (a non-empty frozenset), and its attribute map. -/
structure PClass where
  name : String
  module : String
  abstractMethods : Bool
  attrs : List (String × String)
deriving DecidableEq

/-- `getattr(cls, attr, None)` for string-valued class attributes. -/
def pyGetAttr (cls : PClass) (attr : String) : Option String :=
  dictLookup cls.attrs attr

/-- `setattr(cls, attr, val)`. -/
def pySetAttr (cls : PClass) (attr val : String) : PClass :=
  { cls with attrs := dictInsert cls.attrs attr val }

/-- `SecondaryRegistry` (core.py lines 276-281): key source
(`'primary'` or an attribute name) and the attribute holding the value
to store.  The bound `registry_dict` lives in `RegState.secondaries`,
positionally parallel to the config's binding list. -/
structure SecondaryRegistry where
  keySource : String
  attrName : String

/-- `RegistryConfig` (core.py lines 284-349).  The mutable
`registry_dict` is the `RegState` below rather than a config field; the
discovery fields are carried here as in the dataclass and read by the
lazy discovery store. -/
structure RegistryConfig where
  keyAttribute : String
  keyExtractor : Option (String → PClass → String) := none
  skipIfNoKey : Bool := false
  secondaryRegistries : List SecondaryRegistry := []
  logRegistration : Bool := true
  registryName : String := "plugin"
  discoveryPackage : Option String := none
  discoveryRecursive : Bool := false

/-- The process-wide mutable registries touched by one metaclass
invocation: the primary `registry_dict` and the dicts of the secondary
bindings (in the order of `config.secondaryRegistries`). -/
structure RegState where
  primary : List (String × PClass)
  secondaries : List (List (String × String))
deriving DecidableEq

/-- `AutoRegisterMeta._get_registration_key` (core.py lines 514-526):
the explicit key attribute if it is not `None`, else the extractor
applied to `(name, cls)`, else `None`. -/
def getRegistrationKey (name : String) (cls : PClass) (config : RegistryConfig) :
    Option String :=
  match pyGetAttr cls config.keyAttribute with
  | some key => some key
  | none =>
      match config.keyExtractor with
      | some f => some (f name cls)
      | none => none

/-- Modelled from the spec: the key-resolution order as the
specification words it — "(1) explicit key attribute if not empty,
(2) result of a key-extractor function given (declared name, type),
(3) none" — i.e. an explicit key that is present but EMPTY falls
through to the extractor.  Kept only to compare with
`getRegistrationKey`, which is translated from the source. -/
def getRegistrationKeySpecOrder (name : String) (cls : PClass) (config : RegistryConfig) :
    Option String :=
  let fallback : Option String :=
    match config.keyExtractor with
    | some f => some (f name cls)
    | none => none
  match pyGetAttr cls config.keyAttribute with
  | some key => if key = "" then fallback else some key
  | none => fallback

/-- `AutoRegisterMeta._handle_missing_key` (core.py lines 528-539):
skip (returning Python `None`) when `skip_if_no_key`, else raise a
`ValueError` naming the key attribute. -/
def handleMissingKey (name : String) (config : RegistryConfig) :
    Except String (Option PClass) :=
  if config.skipIfNoKey then Except.ok none
  else Except.error
    ("Class " ++ name ++ " must have " ++ config.keyAttribute ++
      " attribute or provide a key_extractor in registry config")

/-- `AutoRegisterMeta._register_class` (core.py lines 618-621).  The
source stores `cls` and then `setattr`s the key onto the very same
(mutable) object, so the stored class and the returned class are one
object carrying the key attribute; here that sharing is explicit. -/
def registerClass (cls : PClass) (key : String) (config : RegistryConfig)
    (st : RegState) : PClass × RegState :=
  let cls2 := pySetAttr cls config.keyAttribute key
  (cls2, { st with primary := dictInsert st.primary key cls2 })

/-- `AutoRegisterMeta._register_secondary` (core.py lines 624-650),
walking the binding list and the parallel list of secondary dicts. -/
def registerSecondary (cls : PClass) (primaryKey : String) :
    List SecondaryRegistry → List (List (String × String)) →
      List (List (String × String))
  | [], ds => ds
  | _ :: _, [] => []
  | b :: bs, d :: ds =>
      let d2 :=
        match pyGetAttr cls b.attrName with
        | none => d
        | some value =>
            match (if b.keySource = "primary" then some primaryKey
                   else pyGetAttr cls b.keySource) with
            | none => d
            | some sk => dictInsert d sk value
      d2 :: registerSecondary cls primaryKey bs ds

/-- `AutoRegisterMeta.__new__` (core.py lines 386-512), from the
eligibility check on: a contract root (`not bases`) or a still-abstract
class is returned unregistered; then the key is resolved, a missing key
is handled per policy, and a resolved key registers the class in the
primary and secondary registries.  The lazy-discovery set-up block
(lines 404-488) only configures the store and adds no entries, so it is
not part of this registration step.  The result is the returned object
(`none` models Python `None`) together with the updated registries. -/
def newC (name : String) (bases : List String) (cls : PClass)
    (config : RegistryConfig) (st : RegState) :
    Except String (Option PClass × RegState) :=
  if bases.isEmpty || cls.abstractMethods then Except.ok (some cls, st)
  else
    match getRegistrationKey name cls config with
    | none =>
        match handleMissingKey name config with
        | Except.ok r => Except.ok (r, st)
        | Except.error e => Except.error e
    | some key =>
        let p := registerClass cls key config st
        let st3 :=
          if config.secondaryRegistries.isEmpty then p.2
          else { p.2 with
                 secondaries :=
                   registerSecondary p.1 key config.secondaryRegistries
                     p.2.secondaries }
        Except.ok (some p.1, st3)

/-! ## Lazy discovery store (`core.py`, `LazyDiscoveryDict`) -/

/-- The per-store discovery state of `LazyDiscoveryDict`: the dict's
entries, the one-shot `_discovered` flag, whether a `_cache_manager`
was initialized, and the bound `_config` (set by `_set_config`,
possibly still `None`). -/
structure LazyDiscoveryDict where
  entries : List (String × PClass)
  discovered : Bool
  cacheManager : Bool
  config : Option RegistryConfig

/-- What the outside world does during one `_discover` run: the outcome
of `load_cache` (an exception, a cache miss `ok none`, or a hit), the
entries the package scan adds to the store by re-entrant registration
before it either finishes or raises (`scanError`; an import error
before any registration is `scanAdded = []` with an error), and whether
`save_cache` raises. -/
structure DiscoveryEnv where
  cacheLoad : Except String (Option (List (String × PClass)))
  scanAdded : List (String × PClass)
  scanError : Option String
  cacheSave : Option String

/-- The guard `not self._config or not self._config.discovery_package`
(core.py line 189), with Python falsiness: `None` config, `None`
package, and the empty-string package are all falsy. -/
def hasDiscoveryPackage (s : LazyDiscoveryDict) : Bool :=
  match s.config with
  | none => false
  | some cfg =>
      match cfg.discoveryPackage with
      | none => false
      | some p => !(p == "")

/-- The scan-and-save phase of `_discover` (core.py lines 207-241): the
scan's re-entrant registrations land in the store whether or not the
scan then raises; a raise is caught by the outer `except` (line 240),
and a `save_cache` failure is caught by the inner one (line 237). -/
def scanPhase (s1 : LazyDiscoveryDict) (env : DiscoveryEnv) :
    Except String LazyDiscoveryDict :=
  let s2 := { s1 with entries := dictInsertAll s1.entries env.scanAdded }
  match env.scanError with
  | some _ => Except.ok s2
  | none =>
      if s1.cacheManager then
        match env.cacheSave with
        | some _ => Except.ok s2
        | none => Except.ok s2
      else Except.ok s2

/-- `LazyDiscoveryDict._discover` (core.py lines 187-241).  Return
immediately if already discovered or no package is configured; set the
one-shot flag; try the cache (a hit bulk-inserts and returns, a miss or
a caught load exception falls through to the scan phase). -/
def LazyDiscoveryDict.discover (s : LazyDiscoveryDict) (env : DiscoveryEnv) :
    Except String LazyDiscoveryDict :=
  if s.discovered || !(hasDiscoveryPackage s) then Except.ok s
  else
    let s1 := { s with discovered := true }
    if s.cacheManager then
      match env.cacheLoad with
      | Except.ok (some cached) =>
          Except.ok { s1 with entries := dictInsertAll s1.entries cached }
      | Except.ok none => scanPhase s1 env
      | Except.error _ => scanPhase s1 env
    else scanPhase s1 env

/-! ## Cache layer (`cache.py`) -/

/-- `CacheConfig` (cache.py lines 55-60).  `max_age_days` is an `int`
in the source; it is carried into the rational age comparison as in
`cache_age_days > self.config.max_age_days`. -/
structure RegistryCacheConfig where
  maxAgeDays : Int := 7
  checkMtimes : Bool := false
  cacheVersion : String := "1.0"

/-- The parsed JSON cache document.  Fields the source reads with
`cache_data.get(...)` defaults are `Option`s here, with the same
defaults applied at the read site. -/
structure CacheData (D : Type) where
  cacheVersion : Option String
  version : Option String
  timestamp : Option ℚ
  fileMtimes : Option (List (String × ℚ))
  items : Option (List (String × D))

/-- The world `load_cache` consults: the cache file (`none` missing,
`some none` present but structurally corrupt, `some (some d)` parsed),
`time.time()`, the `version_getter()` result, and current file mtimes
(`none` = file no longer exists). -/
structure CacheEnv (D : Type) where
  cacheFile : Option (Option (CacheData D))
  now : ℚ
  currentVersion : String
  fileMtime : List (String × ℚ)

/-- `RegistryCacheManager._validate_mtimes` (cache.py lines 206-225):
every tracked file must still exist and its current mtime must be
within the 1-second tolerance, with the source's early-return loop. -/
def validateMtimes (fs : List (String × ℚ)) : List (String × ℚ) → Bool
  | [] => true
  | (p, m) :: rest =>
      match dictLookup fs p with
      | none => false
      | some cur => if |cur - m| > 1 then false else validateMtimes fs rest

/-- The entry-deserialization loop of `load_cache` (cache.py lines
150-156): any single failure abandons the whole result. -/
def deserializeItems {D T : Type} (deser : D → Except String T) :
    List (String × D) → Option (List (String × T))
  | [] => some []
  | (k, d) :: rest =>
      match deser d with
      | Except.error _ => none
      | Except.ok t =>
          match deserializeItems deser rest with
          | none => none
          | some ts => some ((k, t) :: ts)

/-- `RegistryCacheManager.load_cache` (cache.py lines 100-159).  The
source's validation chain in order: existence, parse (a corrupt file is
also deleted, a filesystem effect outside this value), cache format
version, probed source version (default `"unknown"`), age in days
against `max_age_days`, mtimes when enabled and recorded, then the
fail-closed deserialization of the entries. -/
def loadCache {D T : Type} (cfg : RegistryCacheConfig) (deser : D → Except String T)
    (env : CacheEnv D) : Option (List (String × T)) :=
  match env.cacheFile with
  | none => none
  | some none => none
  | some (some d) =>
      if d.cacheVersion ≠ some cfg.cacheVersion then none
      else if d.version.getD "unknown" ≠ env.currentVersion then none
      else if (env.now - d.timestamp.getD 0) / (24 * 3600) > (cfg.maxAgeDays : ℚ) then none
      else if cfg.checkMtimes && d.fileMtimes.isSome &&
              !(validateMtimes env.fileMtime (d.fileMtimes.getD [])) then none
      else deserializeItems deser (d.items.getD [])

/-- `RegistryCacheManager.save_cache` (cache.py lines 161-198) as the
cache document it writes: current format version, probed source
version, `time.time()`, the mtime map when provided and non-empty
(Python `if file_mtimes:` truthiness), and the per-entry serialized
forms, an entry whose serialization fails being omitted.  The final
disk write (whose own failure the source swallows) is the composition
with `CacheEnv.cacheFile` at the use sites. -/
def saveCache {D T : Type} (cfg : RegistryCacheConfig) (ser : T → Except String D)
    (currentVersion : String) (now : ℚ) (items : List (String × T))
    (fileMtimes : Option (List (String × ℚ))) : CacheData D :=
  { cacheVersion := some cfg.cacheVersion
    version := some currentVersion
    timestamp := some now
    fileMtimes :=
      match fileMtimes with
      | some l => if l.isEmpty then none else some l
      | none => none
    items := some (items.filterMap fun p =>
      match ser p.2 with
      | Except.ok d => some (p.1, d)
      | Except.error _ => none) }

/-! ## Package scanner (`discovery.py`) -/

/-- A module as `pkgutil.iter_modules` + `importlib` present it: its
dotted name (prefix included), the `ispkg` flag, and the classes
`inspect.getmembers(module, inspect.isclass)` finds in it once imported
(`none` when the import or the processing raises — both are caught and
the scan continues with the next module). -/
structure PyModule where
  name : String
  ispkg : Bool
  members : Option (List PClass)

/-- Is `needle` a contiguous sublist of `hay`?  Models Python's
`excluded in module_name` substring test on the underlying characters. -/
def listIsInfix (needle : List Char) : List Char → Bool
  | [] => needle.isEmpty
  | c :: t => List.isPrefixOf needle (c :: t) || listIsInfix needle t

/-- Python's `sub in s` substring containment. -/
def strInfix (needle hay : String) : Bool :=
  listIsInfix needle.toList hay.toList

/-- The per-module body of `discover_registry_classes` (discovery.py
lines 87-106): keep the classes that are subclasses of the base, are
not the base itself (`obj is base_class` — identity, modelled as
equality of the class values), are defined in this very module, and
pass the optional validation function. -/
def moduleClasses (m : PyModule) (base : PClass) (issub : PClass → PClass → Bool)
    (validation : Option (PClass → Bool)) : List PClass :=
  match m.members with
  | none => []
  | some objs =>
      objs.filter fun o =>
        issub o base && !(o == base) && (o.module == m.name) &&
          (match validation with
           | none => true
           | some f => f o)

/-- `discover_registry_classes` (discovery.py lines 24-122), flat mode:
iterate the enumerated modules in order, skipping packages when
`skip_packages` and modules whose name contains an excluded substring,
and collect each surviving module's matching classes. -/
def discoverRegistryClasses (modules : List PyModule) (base : PClass)
    (issub : PClass → PClass → Bool) (excludeModules : List String)
    (validation : Option (PClass → Bool)) (skipPackages : Bool) : List PClass :=
  match modules with
  | [] => []
  | m :: rest =>
      if m.ispkg && skipPackages then
        discoverRegistryClasses rest base issub excludeModules validation skipPackages
      else if excludeModules.any (fun e => strInfix e m.name) then
        discoverRegistryClasses rest base issub excludeModules validation skipPackages
      else
        moduleClasses m base issub validation ++
          discoverRegistryClasses rest base issub excludeModules validation skipPackages

/-! ## Helper lemmas -/

theorem isEmpty_false_of_ne_nil {α : Type} {l : List α} (h : l ≠ []) :
    l.isEmpty = false := by
  cases l with
  | nil => exact absurd rfl h
  | cons a t => rfl

/-- A concrete declaration with a resolved key registers exactly the
key-carrying class and only overwrites that key in the primary map. -/
theorem newC_registered (name : String) (bases : List String) (cls : PClass)
    (config : RegistryConfig) (st : RegState) (k : String)
    (hb : bases ≠ []) (ha : cls.abstractMethods = false)
    (hk : getRegistrationKey name cls config = some k) :
    ∃ st', newC name bases cls config st =
        Except.ok (some (pySetAttr cls config.keyAttribute k), st') ∧
      st'.primary = dictInsert st.primary k (pySetAttr cls config.keyAttribute k) := by
  have hb' : bases.isEmpty = false := isEmpty_false_of_ne_nil hb
  cases hsec : config.secondaryRegistries.isEmpty <;>
    simp [newC, hb', ha, hk, registerClass, hsec]

/-! ## C1 — key resolution order -/

/-- C1 (counterexample): the source resolves the key with a `None`
check, not an emptiness check, so a class whose key attribute is the
empty string keeps `""` as its key, while the spec's resolution order
would fall through to the extractor (here yielding `"widget"`). -/
theorem c1_counterexample :
    getRegistrationKey "Widget"
        ⟨"Widget", "m", false, [("_backend_type", "")]⟩
        { keyAttribute := "_backend_type",
          keyExtractor := some (fun _ _ => "widget") } = some "" ∧
    getRegistrationKeySpecOrder "Widget"
        ⟨"Widget", "m", false, [("_backend_type", "")]⟩
        { keyAttribute := "_backend_type",
          keyExtractor := some (fun _ _ => "widget") } = some "widget" := by
  exact ⟨rfl, rfl⟩

/-- C1 (amended): for every concrete type declaration the registration
key is resolved in this order: if the configured key attribute is
present and not `None`, that value is the key — even when it is the
empty string; otherwise, if a key extractor is configured, the key is
the extractor applied to (declared name, type); otherwise the key is
none. -/
theorem c1_key_resolution_order (name : String) (cls : PClass)
    (config : RegistryConfig) :
    (∀ v, pyGetAttr cls config.keyAttribute = some v →
        getRegistrationKey name cls config = some v) ∧
    (pyGetAttr cls config.keyAttribute = none →
      ∀ f, config.keyExtractor = some f →
        getRegistrationKey name cls config = some (f name cls)) ∧
    (pyGetAttr cls config.keyAttribute = none → config.keyExtractor = none →
        getRegistrationKey name cls config = none) := by
  refine ⟨fun v hv => ?_, fun h f hf => ?_, fun h hf => ?_⟩ <;>
    simp [getRegistrationKey, *]

/-- C1 witness: the three branches of the resolution order at concrete
inputs (explicit key `"disk"`; no key but an extractor; neither). -/
theorem c1_key_resolution_order_witness :
    getRegistrationKey "DiskBackend"
        ⟨"DiskBackend", "m", false, [("_backend_type", "disk")]⟩
        { keyAttribute := "_backend_type" } = some "disk" ∧
    getRegistrationKey "DiskBackend" ⟨"DiskBackend", "m", false, []⟩
        { keyAttribute := "_backend_type",
          keyExtractor := some (fun n _ => n) } = some "DiskBackend" ∧
    getRegistrationKey "DiskBackend" ⟨"DiskBackend", "m", false, []⟩
        { keyAttribute := "_backend_type" } = none := by
  refine ⟨?_, ?_, ?_⟩
  · exact (c1_key_resolution_order "DiskBackend"
      ⟨"DiskBackend", "m", false, [("_backend_type", "disk")]⟩
      { keyAttribute := "_backend_type" }).1 "disk" (by decide)
  · exact (c1_key_resolution_order "DiskBackend" ⟨"DiskBackend", "m", false, []⟩
      { keyAttribute := "_backend_type",
        keyExtractor := some (fun n _ => n) }).2.1 (by decide) _ rfl
  · exact (c1_key_resolution_order "DiskBackend" ⟨"DiskBackend", "m", false, []⟩
      { keyAttribute := "_backend_type" }).2.2 (by decide) rfl

/-! ## C2 — missing-key policy -/

/-- C2: for a concrete declaration whose key resolves to none, with
`skip_if_no_key` false the declaration raises synchronously with a
message naming the missing key attribute; with `skip_if_no_key` true
registration is skipped without raising (and the registries are left
untouched). -/
theorem c2_missing_key_policy (name : String) (bases : List String) (cls : PClass)
    (config : RegistryConfig) (st : RegState)
    (hb : bases ≠ []) (ha : cls.abstractMethods = false)
    (hk : getRegistrationKey name cls config = none) :
    (config.skipIfNoKey = false →
      newC name bases cls config st =
        Except.error ("Class " ++ name ++ " must have " ++ config.keyAttribute ++
          " attribute or provide a key_extractor in registry config") ∧
      ∃ p q, newC name bases cls config st =
        Except.error (p ++ config.keyAttribute ++ q)) ∧
    (config.skipIfNoKey = true →
      newC name bases cls config st = Except.ok (none, st)) := by
  have hb' : bases.isEmpty = false := isEmpty_false_of_ne_nil hb
  constructor
  · intro hs
    constructor
    · simp [newC, hb', ha, hk, handleMissingKey, hs]
    · exact ⟨"Class " ++ name ++ " must have ",
        " attribute or provide a key_extractor in registry config",
        by simp [newC, hb', ha, hk, handleMissingKey, hs]⟩
  · intro hs
    simp [newC, hb', ha, hk, handleMissingKey, hs]

/-- C2 witness: both policies at a concrete keyless concrete class. -/
theorem c2_missing_key_policy_witness :
    newC "Foo" ["Base"] ⟨"Foo", "m", false, []⟩ { keyAttribute := "_t" } ⟨[], []⟩ =
      Except.error ("Class " ++ "Foo" ++ " must have " ++ "_t" ++
        " attribute or provide a key_extractor in registry config") ∧
    newC "Foo" ["Base"] ⟨"Foo", "m", false, []⟩
        { keyAttribute := "_t", skipIfNoKey := true } ⟨[], []⟩ =
      Except.ok (none, ⟨[], []⟩) := by
  constructor
  · exact ((c2_missing_key_policy "Foo" ["Base"] ⟨"Foo", "m", false, []⟩
      { keyAttribute := "_t" } ⟨[], []⟩ (by simp) rfl rfl).1 rfl).1
  · exact (c2_missing_key_policy "Foo" ["Base"] ⟨"Foo", "m", false, []⟩
      { keyAttribute := "_t", skipIfNoKey := true } ⟨[], []⟩ (by simp) rfl rfl).2 rfl

/-! ## C3 — skip returns Python `None` -/

/-- C3: when `skip_if_no_key` is true and the key resolves to none,
`AutoRegisterMeta.__new__` returns `None` instead of the created class
(so the declared name gets bound to `None`), leaving the registries
unchanged. -/
theorem c3_skip_returns_none (name : String) (bases : List String) (cls : PClass)
    (config : RegistryConfig) (st : RegState)
    (hb : bases ≠ []) (ha : cls.abstractMethods = false)
    (hk : getRegistrationKey name cls config = none)
    (hs : config.skipIfNoKey = true) :
    newC name bases cls config st = Except.ok (none, st) := by
  have hb' : bases.isEmpty = false := isEmpty_false_of_ne_nil hb
  simp [newC, hb', ha, hk, handleMissingKey, hs]

/-- C3 witness: a concrete skip-configured keyless class yields `None`. -/
theorem c3_skip_returns_none_witness :
    newC "Bar" ["Base"] ⟨"Bar", "m", false, []⟩
        { keyAttribute := "_t", skipIfNoKey := true } ⟨[], []⟩ =
      Except.ok (none, ⟨[], []⟩) :=
  c3_skip_returns_none "Bar" ["Base"] ⟨"Bar", "m", false, []⟩
    { keyAttribute := "_t", skipIfNoKey := true } ⟨[], []⟩ (by simp) rfl rfl rfl

/-! ## C7 — contract roots and abstract types are never registered -/

/-- C7: a contract root (no bases) or a still-abstract type is returned
unregistered: the whole registry state is unchanged, so in particular
the primary registry's length is unchanged. -/
theorem c7_roots_abstract_unregistered (name : String) (bases : List String)
    (cls : PClass) (config : RegistryConfig) (st : RegState)
    (h : bases = [] ∨ cls.abstractMethods = true) :
    newC name bases cls config st = Except.ok (some cls, st) ∧
    ∀ r st', newC name bases cls config st = Except.ok (r, st') →
      st'.primary.length = st.primary.length := by
  have hmain : newC name bases cls config st = Except.ok (some cls, st) := by
    rcases h with h | h
    · subst h; simp [newC]
    · simp [newC, h]
  refine ⟨hmain, fun r st' h' => ?_⟩
  rw [hmain] at h'
  cases h'
  rfl

/-- C7 witness: a baseless root and an abstract subclass, each leaving
a one-entry registry intact. -/
theorem c7_roots_abstract_unregistered_witness :
    newC "Root" [] ⟨"Root", "m", false, []⟩ { keyAttribute := "_t" }
        ⟨[("k", ⟨"C", "m", false, []⟩)], []⟩ =
      Except.ok (some ⟨"Root", "m", false, []⟩, ⟨[("k", ⟨"C", "m", false, []⟩)], []⟩) ∧
    newC "Abs" ["Root"] ⟨"Abs", "m", true, [("_t", "abs")]⟩ { keyAttribute := "_t" }
        ⟨[("k", ⟨"C", "m", false, []⟩)], []⟩ =
      Except.ok (some ⟨"Abs", "m", true, [("_t", "abs")]⟩,
        ⟨[("k", ⟨"C", "m", false, []⟩)], []⟩) := by
  constructor
  · exact (c7_roots_abstract_unregistered "Root" [] ⟨"Root", "m", false, []⟩
      { keyAttribute := "_t" } ⟨[("k", ⟨"C", "m", false, []⟩)], []⟩ (Or.inl rfl)).1
  · exact (c7_roots_abstract_unregistered "Abs" ["Root"]
      ⟨"Abs", "m", true, [("_t", "abs")]⟩ { keyAttribute := "_t" }
      ⟨[("k", ⟨"C", "m", false, []⟩)], []⟩ (Or.inr rfl)).1

/-! ## C6 — silent last-write-wins, entries never removed -/

/-- C6: two concrete declarations in order resolving to the same key
both succeed (no error is raised), afterwards the primary registry maps
that key to the later-declared type, and no registration ever removes
an existing entry from the primary registry. -/
theorem c6_overwrite_last_wins :
    (∀ (cfg : RegistryConfig) (st : RegState) (n1 : String) (b1 : List String)
        (c1 : PClass) (n2 : String) (b2 : List String) (c2 : PClass) (k : String),
      b1 ≠ [] → c1.abstractMethods = false → getRegistrationKey n1 c1 cfg = some k →
      b2 ≠ [] → c2.abstractMethods = false → getRegistrationKey n2 c2 cfg = some k →
      ∃ st1 st2,
        newC n1 b1 c1 cfg st = Except.ok (some (pySetAttr c1 cfg.keyAttribute k), st1) ∧
        newC n2 b2 c2 cfg st1 = Except.ok (some (pySetAttr c2 cfg.keyAttribute k), st2) ∧
        dictLookup st2.primary k = some (pySetAttr c2 cfg.keyAttribute k)) ∧
    (∀ (cfg : RegistryConfig) (st : RegState) (n : String) (b : List String)
        (c : PClass) (r : Option PClass) (st2 : RegState),
      newC n b c cfg st = Except.ok (r, st2) →
      ∀ k', (dictLookup st.primary k').isSome → (dictLookup st2.primary k').isSome) := by
  constructor
  · intro cfg st n1 b1 c1 n2 b2 c2 k hb1 ha1 hk1 hb2 ha2 hk2
    obtain ⟨st1, h1, hp1⟩ := newC_registered n1 b1 c1 cfg st k hb1 ha1 hk1
    obtain ⟨st2, h2, hp2⟩ := newC_registered n2 b2 c2 cfg st1 k hb2 ha2 hk2
    refine ⟨st1, st2, h1, h2, ?_⟩
    rw [hp2]
    exact dictLookup_dictInsert_self _ _ _
  · intro cfg st n b c r st2 h k' hs
    cases hcond : (b.isEmpty || c.abstractMethods) with
    | true =>
        simp only [newC, hcond, if_true, Except.ok.injEq, Prod.mk.injEq] at h
        obtain ⟨-, h2⟩ := h
        exact h2 ▸ hs
    | false =>
        simp only [newC, hcond, Bool.false_eq_true, if_false] at h
        cases hk : getRegistrationKey n c cfg with
        | none =>
            rw [hk] at h
            cases hskip : cfg.skipIfNoKey with
            | false => simp [handleMissingKey, hskip] at h
            | true =>
                simp [handleMissingKey, hskip] at h
                obtain ⟨-, h2⟩ := h
                subst h2
                exact hs
        | some key =>
            rw [hk] at h
            cases hsec : cfg.secondaryRegistries.isEmpty <;>
              simp only [registerClass, hsec, if_true, if_false,
                Bool.false_eq_true, Except.ok.injEq, Prod.mk.injEq] at h <;>
              obtain ⟨-, h2⟩ := h <;>
              subst h2 <;>
              exact dictLookup_dictInsert_isSome st.primary key k' _ hs

/-- C6 witness: `A` then `B`, both keyed `"disk"`, leave `B` stored at
`"disk"` while the pre-existing `"mem"` entry survives. -/
theorem c6_overwrite_last_wins_witness :
    ∃ st1 st2,
      newC "A" ["Base"] ⟨"A", "m", false, [("_t", "disk")]⟩ { keyAttribute := "_t" }
          ⟨[("mem", ⟨"M", "m", false, []⟩)], []⟩ =
        Except.ok (some (pySetAttr ⟨"A", "m", false, [("_t", "disk")]⟩ "_t" "disk"), st1) ∧
      newC "B" ["Base"] ⟨"B", "m", false, [("_t", "disk")]⟩ { keyAttribute := "_t" } st1 =
        Except.ok (some (pySetAttr ⟨"B", "m", false, [("_t", "disk")]⟩ "_t" "disk"), st2) ∧
      dictLookup st2.primary "disk" =
        some (pySetAttr ⟨"B", "m", false, [("_t", "disk")]⟩ "_t" "disk") :=
  c6_overwrite_last_wins.1 { keyAttribute := "_t" }
    ⟨[("mem", ⟨"M", "m", false, []⟩)], []⟩
    "A" ["Base"] ⟨"A", "m", false, [("_t", "disk")]⟩
    "B" ["Base"] ⟨"B", "m", false, [("_t", "disk")]⟩ "disk"
    (by simp) rfl rfl (by simp) rfl rfl

/-! ## Discovery lemmas -/

/-- Whatever the scan and save outcomes, the scan phase ends in the
state holding the entries the scan managed to add. -/
theorem scanPhase_eq (s1 : LazyDiscoveryDict) (env : DiscoveryEnv) :
    scanPhase s1 env =
      Except.ok { s1 with entries := dictInsertAll s1.entries env.scanAdded } := by
  unfold scanPhase
  cases env.scanError <;> cases hc : s1.cacheManager <;> cases env.cacheSave <;> simp [hc]

/-- A discovery run that passes the one-shot guard ends either in the
cache-hit state or in the post-scan state, both flagged discovered. -/
theorem discover_cases (s : LazyDiscoveryDict) (env : DiscoveryEnv)
    (hd : s.discovered = false) (hp : hasDiscoveryPackage s = true) :
    (s.cacheManager = true ∧ ∃ cached, env.cacheLoad = Except.ok (some cached) ∧
      s.discover env =
        Except.ok { s with discovered := true,
                           entries := dictInsertAll s.entries cached }) ∨
    s.discover env =
      Except.ok { s with discovered := true,
                         entries := dictInsertAll s.entries env.scanAdded } := by
  unfold LazyDiscoveryDict.discover
  simp only [hd, hp, Bool.not_true, Bool.or_false, Bool.false_eq_true, if_false]
  cases hc : s.cacheManager with
  | false => right; exact scanPhase_eq _ _
  | true =>
      cases hl : env.cacheLoad with
      | error e => right; exact scanPhase_eq _ _
      | ok o =>
          cases o with
          | none => right; exact scanPhase_eq _ _
          | some cached => left; exact ⟨rfl, cached, rfl, rfl⟩

/-- The one-shot guard: an already-discovered store, or one without a
configured discovery package, is returned untouched. -/
theorem discover_guard (s : LazyDiscoveryDict) (env : DiscoveryEnv)
    (h : s.discovered = true ∨ hasDiscoveryPackage s = false) :
    s.discover env = Except.ok s := by
  rcases h with h | h <;> simp [LazyDiscoveryDict.discover, h]

/-- Any state `_discover` returns absorbs every further `_discover`. -/
theorem discover_idem (s : LazyDiscoveryDict) (env : DiscoveryEnv)
    (s2 : LazyDiscoveryDict) (env2 : DiscoveryEnv)
    (h : s.discover env = Except.ok s2) : s2.discover env2 = Except.ok s2 := by
  cases hd : s.discovered with
  | true =>
      rw [discover_guard s env (Or.inl hd)] at h
      cases h
      exact discover_guard s env2 (Or.inl hd)
  | false =>
      cases hp : hasDiscoveryPackage s with
      | false =>
          rw [discover_guard s env (Or.inr hp)] at h
          cases h
          exact discover_guard s env2 (Or.inr hp)
      | true =>
          rcases discover_cases s env hd hp with ⟨-, cached, -, heq⟩ | heq <;>
            rw [heq] at h <;> cases h <;> exact discover_guard _ env2 (Or.inl rfl)

/-! ## C5 — discovery runs at most once per store -/

/-- C5: once the one-shot flag is set, or when no discovery package is
configured, `_discover` returns the store unchanged; consequently a
second discovery on any already-discovered store never changes its
contents. -/
theorem c5_discovery_at_most_once :
    (∀ (s : LazyDiscoveryDict) (env : DiscoveryEnv),
      s.discovered = true ∨ hasDiscoveryPackage s = false →
      s.discover env = Except.ok s) ∧
    (∀ (s : LazyDiscoveryDict) (env : DiscoveryEnv) (s2 : LazyDiscoveryDict)
        (env2 : DiscoveryEnv),
      s.discover env = Except.ok s2 → s2.discover env2 = Except.ok s2) :=
  ⟨discover_guard, discover_idem⟩

/-- C5 witness: an already-discovered one-entry store is untouched by a
further `_discover`, and re-running after a first run is a no-op. -/
theorem c5_discovery_at_most_once_witness :
    LazyDiscoveryDict.discover
        ⟨[("a", ⟨"A", "m", false, []⟩)], true, false,
          some { keyAttribute := "_t", discoveryPackage := some "pkg" }⟩
        ⟨Except.ok none, [("b", ⟨"B", "m", false, []⟩)], none, none⟩ =
      Except.ok ⟨[("a", ⟨"A", "m", false, []⟩)], true, false,
        some { keyAttribute := "_t", discoveryPackage := some "pkg" }⟩ ∧
    LazyDiscoveryDict.discover
        ⟨[("a", ⟨"A", "m", false, []⟩)], true, false,
          some { keyAttribute := "_t", discoveryPackage := some "pkg" }⟩
        ⟨Except.ok none, [], none, none⟩ =
      Except.ok ⟨[("a", ⟨"A", "m", false, []⟩)], true, false,
        some { keyAttribute := "_t", discoveryPackage := some "pkg" }⟩ := by
  constructor
  · exact c5_discovery_at_most_once.1
      ⟨[("a", ⟨"A", "m", false, []⟩)], true, false,
        some { keyAttribute := "_t", discoveryPackage := some "pkg" }⟩
      ⟨Except.ok none, [("b", ⟨"B", "m", false, []⟩)], none, none⟩ (Or.inl rfl)
  · exact c5_discovery_at_most_once.2
      ⟨[("a", ⟨"A", "m", false, []⟩)], true, false,
        some { keyAttribute := "_t", discoveryPackage := some "pkg" }⟩
      ⟨Except.ok none, [("b", ⟨"B", "m", false, []⟩)], none, none⟩ _
      ⟨Except.ok none, [], none, none⟩
      (discover_guard
        ⟨[("a", ⟨"A", "m", false, []⟩)], true, false,
          some { keyAttribute := "_t", discoveryPackage := some "pkg" }⟩
        ⟨Except.ok none, [("b", ⟨"B", "m", false, []⟩)], none, none⟩ (Or.inl rfl))

/-! ## C10 — discovery failures are contained -/

/-- C10: `_discover` never propagates an exception (every cache-load,
scan or cache-save failure fed in by the environment still yields an
`ok` state); a run that passes the guard always sets the one-shot flag,
is never retried (a later `_discover` is a no-op), and when the scan
phase runs — cache disabled, cache miss, or cache-load failure — the
store ends up with exactly the entries the scan added before any
failure. -/
theorem c10_discovery_failure_contained :
    (∀ (s : LazyDiscoveryDict) (env : DiscoveryEnv),
      ∃ s2 : LazyDiscoveryDict, s.discover env = Except.ok s2) ∧
    (∀ (s : LazyDiscoveryDict) (env : DiscoveryEnv),
      s.discovered = false → hasDiscoveryPackage s = true →
      ∃ s2 : LazyDiscoveryDict, s.discover env = Except.ok s2 ∧ s2.discovered = true ∧
        (∀ env2, s2.discover env2 = Except.ok s2) ∧
        ((s.cacheManager = false ∨ env.cacheLoad = Except.ok none ∨
            (∃ e, env.cacheLoad = Except.error e)) →
          s2.entries = dictInsertAll s.entries env.scanAdded)) := by
  constructor
  · intro s env
    cases hd : s.discovered with
    | true => exact ⟨s, discover_guard s env (Or.inl hd)⟩
    | false =>
        cases hp : hasDiscoveryPackage s with
        | false => exact ⟨s, discover_guard s env (Or.inr hp)⟩
        | true =>
            rcases discover_cases s env hd hp with ⟨-, cached, -, heq⟩ | heq <;>
              exact ⟨_, heq⟩
  · intro s env hd hp
    rcases discover_cases s env hd hp with ⟨hcm, cached, hload, heq⟩ | heq
    · refine ⟨_, heq, rfl, fun env2 => discover_idem _ env _ env2 heq,
        fun hscan => ?_⟩
      rcases hscan with h | h | ⟨e, h⟩
      · rw [hcm] at h; cases h
      · rw [hload] at h; cases h
      · rw [hload] at h; cases h
    · exact ⟨_, heq, rfl, fun env2 => discover_idem _ env _ env2 heq,
        fun _ => rfl⟩

/-- C10 witness: an undiscovered store whose scan adds one entry and
then raises still ends `ok`, flagged discovered, holding that entry. -/
theorem c10_discovery_failure_contained_witness :
    ∃ s2 : LazyDiscoveryDict,
      LazyDiscoveryDict.discover
          ⟨[], false, false,
            some { keyAttribute := "_t", discoveryPackage := some "pkg" }⟩
          ⟨Except.ok none, [("k", ⟨"K", "m", false, []⟩)], some "boom", none⟩ =
        Except.ok s2 ∧ s2.discovered = true ∧
      (∀ env2, s2.discover env2 = Except.ok s2) ∧
      ((false = false ∨
          (Except.ok none : Except String (Option (List (String × PClass)))) =
            Except.ok none ∨
          (∃ e, (Except.ok none : Except String (Option (List (String × PClass)))) =
            Except.error e)) →
        s2.entries = dictInsertAll [] [("k", ⟨"K", "m", false, []⟩)]) :=
  c10_discovery_failure_contained.2
    ⟨[], false, false, some { keyAttribute := "_t", discoveryPackage := some "pkg" }⟩
    ⟨Except.ok none, [("k", ⟨"K", "m", false, []⟩)], some "boom", none⟩
    rfl (by decide)

/-! ## Cache lemmas -/

/-- A passing mtime validation means every tracked file still exists
with a current mtime within the 1-second tolerance. -/
theorem validateMtimes_sound (fs : List (String × ℚ)) (l : List (String × ℚ))
    (h : validateMtimes fs l = true) :
    ∀ p m, (p, m) ∈ l → ∃ cur, dictLookup fs p = some cur ∧ |cur - m| ≤ 1 := by
  induction l with
  | nil => intro p m hm; cases hm
  | cons pm rest ih =>
      intro p m hm
      obtain ⟨pp, pmt⟩ := pm
      cases hl : dictLookup fs pp with
      | none =>
          simp only [validateMtimes, hl] at h
          exact Bool.noConfusion h
      | some cur =>
          simp only [validateMtimes, hl] at h
          by_cases htol : |cur - pmt| > 1
          · rw [if_pos htol] at h; cases h
          · rw [if_neg htol] at h
            rcases List.mem_cons.mp hm with heq | hmem
            · injection heq with h1 h2
              subst h1; subst h2
              exact ⟨cur, hl, not_lt.mp htol⟩
            · exact ih h p m hmem

/-- One entry whose deserialization fails sinks the whole item loop. -/
theorem deserializeItems_error {D T : Type} (deser : D → Except String T)
    (l : List (String × D)) (k : String) (dd : D) (e : String)
    (hmem : (k, dd) ∈ l) (he : deser dd = Except.error e) :
    deserializeItems deser l = none := by
  induction l with
  | nil => cases hmem
  | cons p rest ih =>
      obtain ⟨pk, pd⟩ := p
      rcases List.mem_cons.mp hmem with heq | hmem2
      · injection heq with h1 h2
        subst h1; subst h2
        simp [deserializeItems, he]
      · rw [deserializeItems]
        cases hd : deser pd with
        | error e2 => rfl
        | ok t => rw [ih hmem2]

/-! ## C4 — load-cache validation chain, fail-closed entries -/

/-- C4: `load_cache` returns a populated map only when the cache file
exists and parses, its format version matches, its source version
matches the probe, its age is within the configured maximum, and — when
mtime checking is enabled and an mtime map is recorded — every tracked
file still exists with a current mtime within 1 second of the recorded
one; moreover one failing entry deserialization makes the whole load
return nothing. -/
theorem c4_load_cache_validation {D T : Type} :
    (∀ (cfg : RegistryCacheConfig) (deser : D → Except String T) (env : CacheEnv D)
        (items : List (String × T)),
      loadCache cfg deser env = some items →
      ∃ d : CacheData D, env.cacheFile = some (some d) ∧
        d.cacheVersion = some cfg.cacheVersion ∧
        d.version.getD "unknown" = env.currentVersion ∧
        (env.now - d.timestamp.getD 0) / (24 * 3600) ≤ (cfg.maxAgeDays : ℚ) ∧
        (cfg.checkMtimes = true → ∀ l, d.fileMtimes = some l →
          ∀ p m, (p, m) ∈ l →
            ∃ cur, dictLookup env.fileMtime p = some cur ∧ |cur - m| ≤ 1) ∧
        deserializeItems deser (d.items.getD []) = some items) ∧
    (∀ (cfg : RegistryCacheConfig) (deser : D → Except String T) (env : CacheEnv D)
        (d : CacheData D) (k : String) (dd : D) (e : String),
      env.cacheFile = some (some d) → (k, dd) ∈ d.items.getD [] →
      deser dd = Except.error e →
      loadCache cfg deser env = none) := by
  constructor
  · intro cfg deser env items h
    cases hcf : env.cacheFile with
    | none => simp [loadCache, hcf] at h
    | some o =>
        cases o with
        | none => simp [loadCache, hcf] at h
        | some d =>
            simp only [loadCache, hcf] at h
            by_cases h1 : d.cacheVersion ≠ some cfg.cacheVersion
            · rw [if_pos h1] at h; cases h
            · rw [if_neg h1] at h
              by_cases h2 : d.version.getD "unknown" ≠ env.currentVersion
              · rw [if_pos h2] at h; cases h
              · rw [if_neg h2] at h
                by_cases h3 :
                    (env.now - d.timestamp.getD 0) / (24 * 3600) > (cfg.maxAgeDays : ℚ)
                · rw [if_pos h3] at h; cases h
                · rw [if_neg h3] at h
                  cases h4 : (cfg.checkMtimes && d.fileMtimes.isSome &&
                      !(validateMtimes env.fileMtime (d.fileMtimes.getD []))) with
                  | true => simp [h4] at h
                  | false =>
                      simp only [h4, Bool.false_eq_true, if_false] at h
                      refine ⟨d, rfl, not_not.mp h1, not_not.mp h2, not_lt.mp h3,
                        fun hcm l hl p m hpm => ?_, h⟩
                      rw [hcm, hl] at h4
                      simp only [Option.isSome_some, Bool.and_true, Bool.true_and,
                        Bool.not_eq_false'] at h4
                      have hsound :=
                        validateMtimes_sound env.fileMtime (d.fileMtimes.getD []) (by
                          rw [hl]; exact h4)
                      rw [hl] at hsound
                      exact hsound p m hpm
  · intro cfg deser env d k dd e hcf hmem he
    simp only [loadCache, hcf]
    by_cases h1 : d.cacheVersion ≠ some cfg.cacheVersion
    · rw [if_pos h1]
    · rw [if_neg h1]
      by_cases h2 : d.version.getD "unknown" ≠ env.currentVersion
      · rw [if_pos h2]
      · rw [if_neg h2]
        by_cases h3 :
            (env.now - d.timestamp.getD 0) / (24 * 3600) > (cfg.maxAgeDays : ℚ)
        · rw [if_pos h3]
        · rw [if_neg h3]
          cases h4 : (cfg.checkMtimes && d.fileMtimes.isSome &&
              !(validateMtimes env.fileMtime (d.fileMtimes.getD []))) with
          | true => simp [h4]
          | false =>
              simp only [h4, Bool.false_eq_true, if_false]
              exact deserializeItems_error deser _ k dd e hmem he

/-- C4 witness: a fully valid one-entry cache document loads, exposing
each validated condition, while the same document under a failing
deserializer loads as nothing. -/
theorem c4_load_cache_validation_witness :
    (∃ d : CacheData String,
      ((⟨some (some ⟨some "1.0", some "2.0", some 0, none, some [("a", "x")]⟩),
          3600, "2.0", []⟩ : CacheEnv String)).cacheFile = some (some d) ∧
      d.cacheVersion = some ({} : RegistryCacheConfig).cacheVersion ∧
      d.version.getD "unknown" = "2.0" ∧
      ((3600 : ℚ) - d.timestamp.getD 0) / (24 * 3600) ≤
        (({} : RegistryCacheConfig).maxAgeDays : ℚ) ∧
      (({} : RegistryCacheConfig).checkMtimes = true → ∀ l, d.fileMtimes = some l →
        ∀ p m, (p, m) ∈ l →
          ∃ cur, dictLookup ([] : List (String × ℚ)) p = some cur ∧ |cur - m| ≤ 1) ∧
      deserializeItems (Except.ok : String → Except String String) (d.items.getD []) =
        some [("a", "x")]) ∧
    loadCache {} (fun _ => (Except.error "bad" : Except String String))
      ⟨some (some ⟨some "1.0", some "2.0", some 0, none, some [("a", "x")]⟩),
        3600, "2.0", []⟩ = none := by
  constructor
  · exact c4_load_cache_validation.1 {} Except.ok
      ⟨some (some ⟨some "1.0", some "2.0", some 0, none, some [("a", "x")]⟩),
        3600, "2.0", []⟩ [("a", "x")] (by
          simp only [loadCache]
          rw [if_neg (by simp), if_neg (by simp), if_neg (by norm_num), if_neg (by simp)]
          rfl)
  · exact c4_load_cache_validation.2 {} (fun _ => Except.error "bad")
      ⟨some (some ⟨some "1.0", some "2.0", some 0, none, some [("a", "x")]⟩),
        3600, "2.0", []⟩
      ⟨some "1.0", some "2.0", some 0, none, some [("a", "x")]⟩ "a" "x" "bad"
      rfl (by simp) rfl

/-- When every item serializes and the serialized form deserializes,
the item loop inverts the serialization loop key-by-key, in order. -/
theorem deserializeItems_filterMap {D T : Type} (ser : T → Except String D)
    (deser : D → Except String T) (items : List (String × T))
    (hser : ∀ p ∈ items, ∃ d t', ser p.2 = Except.ok d ∧ deser d = Except.ok t') :
    ∃ loaded, deserializeItems deser (items.filterMap fun p =>
        match ser p.2 with
        | Except.ok d => some (p.1, d)
        | Except.error _ => none) = some loaded ∧
      List.Forall₂ (fun p q => q.1 = p.1 ∧
        ∃ d, ser p.2 = Except.ok d ∧ deser d = Except.ok q.2) items loaded := by
  induction items with
  | nil => exact ⟨[], rfl, List.Forall₂.nil⟩
  | cons p rest ih =>
      obtain ⟨d, t', hd, hdes⟩ := hser p (List.mem_cons_self p rest)
      obtain ⟨loaded, hdi, hfa⟩ :=
        ih (fun q hq => hser q (List.mem_cons_of_mem p hq))
      refine ⟨(p.1, t') :: loaded, ?_, List.Forall₂.cons ⟨rfl, d, hd, hdes⟩ hfa⟩
      simp only [List.filterMap_cons, hd, deserializeItems, hdes, hdi]

/-! ## C8 — cache round-trip -/

/-- C8: saving items and then loading with the same version probe
result, within the configured maximum age, and with the tracked mtimes
still validating, returns a map with the same keys in the same order,
each value being the deserialization of the saved item's serialized
form. -/
theorem c8_cache_round_trip {D T : Type} (cfg : RegistryCacheConfig)
    (ser : T → Except String D) (deser : D → Except String T)
    (curVersion : String) (saveTime loadTime : ℚ) (items : List (String × T))
    (fileMtimes : Option (List (String × ℚ))) (fs : List (String × ℚ))
    (hser : ∀ p ∈ items, ∃ d t', ser p.2 = Except.ok d ∧ deser d = Except.ok t')
    (hage : (loadTime - saveTime) / (24 * 3600) ≤ (cfg.maxAgeDays : ℚ))
    (hmt : ∀ l, fileMtimes = some l → validateMtimes fs l = true) :
    ∃ loaded, loadCache cfg deser
        { cacheFile := some (some (saveCache cfg ser curVersion saveTime items fileMtimes)),
          now := loadTime, currentVersion := curVersion, fileMtime := fs } =
        some loaded ∧
      List.Forall₂ (fun p q => q.1 = p.1 ∧
        ∃ d, ser p.2 = Except.ok d ∧ deser d = Except.ok q.2) items loaded := by
  obtain ⟨loaded, hdi, hfa⟩ := deserializeItems_filterMap ser deser items hser
  refine ⟨loaded, ?_, hfa⟩
  cases hfm : fileMtimes with
  | none =>
      simp only [loadCache, saveCache, hfm]
      rw [if_neg (by simp), if_neg (by simp), if_neg (by simpa using not_lt.mpr hage),
        if_neg (by simp)]
      simpa using hdi
  | some l =>
      subst hfm
      have hv := hmt l rfl
      cases hle : l.isEmpty with
      | true =>
          simp only [loadCache, saveCache, hle, if_true]
          rw [if_neg (by simp), if_neg (by simp), if_neg (by simpa using not_lt.mpr hage),
            if_neg (by simp)]
          simpa using hdi
      | false =>
          simp only [loadCache, saveCache, hle, Bool.false_eq_true, if_false]
          rw [if_neg (by simp), if_neg (by simp), if_neg (by simpa using not_lt.mpr hage),
            if_neg (by simp [hv])]
          simpa using hdi

/-- C8 witness: one item round-trips through an identity
serializer/deserializer pair under an unchanged version, within age,
with no tracked mtimes. -/
theorem c8_cache_round_trip_witness :
    ∃ loaded, loadCache {} (Except.ok : String → Except String String)
        { cacheFile := some (some (saveCache {}
            (Except.ok : String → Except String String) "2.0" 0 [("a", "x")] none)),
          now := 3600, currentVersion := "2.0", fileMtime := [] } = some loaded ∧
      List.Forall₂ (fun p q => q.1 = p.1 ∧
        ∃ d, (Except.ok p.2 : Except String String) = Except.ok d ∧
          (Except.ok d : Except String String) = Except.ok q.2) [("a", "x")] loaded :=
  c8_cache_round_trip {} Except.ok Except.ok "2.0" 0 3600 [("a", "x")] none []
    (fun p _ => ⟨p.2, p.2, rfl, rfl⟩) (by norm_num) (fun l hl => by cases hl)

/-! ## C9 — flat-mode scanner membership -/

/-- C9: in flat mode (packages skipped, no exclusions) the scanner
yields exactly the classes that sit in some enumerated non-package
module that imported successfully, are subclasses of the base contract,
are not the base contract itself, are defined directly in that module,
and pass the validation predicate when one is supplied. -/
theorem c9_flat_scanner_membership (modules : List PyModule) (base : PClass)
    (issub : PClass → PClass → Bool) (validation : Option (PClass → Bool))
    (o : PClass) :
    o ∈ discoverRegistryClasses modules base issub [] validation true ↔
    ∃ m ∈ modules, m.ispkg = false ∧ ∃ objs, m.members = some objs ∧ o ∈ objs ∧
      issub o base = true ∧ o ≠ base ∧ o.module = m.name ∧
      ∀ f, validation = some f → f o = true := by
  induction modules with
  | nil => simp [discoverRegistryClasses]
  | cons m rest ih =>
      rw [discoverRegistryClasses]
      cases hpk : m.ispkg with
      | true =>
          simp only [Bool.and_self, if_true, List.any_nil, ih,
            List.exists_mem_cons_iff]
          constructor
          · exact Or.inr
          · rintro (⟨hfalse, -⟩ | hrest)
            · rw [hpk] at hfalse; cases hfalse
            · exact hrest
      | false =>
          simp only [Bool.false_and, Bool.false_eq_true, if_false, List.any_nil,
            List.mem_append, ih, List.exists_mem_cons_iff]
          constructor
          · rintro (hmod | hrest)
            · left
              unfold moduleClasses at hmod
              cases hmem : m.members with
              | none => rw [hmem] at hmod; cases hmod
              | some objs =>
                  rw [hmem] at hmod
                  obtain ⟨ho, hp⟩ := List.mem_filter.mp hmod
                  refine ⟨hpk, objs, rfl, ho, ?_⟩
                  cases hval : validation with
                  | none =>
                      rw [hval] at hp
                      simp only [Bool.and_true, Bool.and_eq_true, beq_iff_eq,
                        Bool.not_eq_true', beq_eq_false_iff_ne] at hp
                      exact ⟨hp.1.1, hp.1.2, hp.2, fun f hf => by cases hf⟩
                  | some f =>
                      rw [hval] at hp
                      simp only [Bool.and_eq_true, beq_iff_eq,
                        Bool.not_eq_true', beq_eq_false_iff_ne] at hp
                      exact ⟨hp.1.1.1, hp.1.1.2, hp.1.2,
                        fun g hg => by cases hg; exact hp.2⟩
            · exact Or.inr hrest
          · rintro (⟨-, objs, hmem, ho, hsub, hne, hmod, hv⟩ | hrest)
            · left
              unfold moduleClasses
              rw [hmem]
              refine List.mem_filter.mpr ⟨ho, ?_⟩
              cases hval : validation with
              | none =>
                  simp only [Bool.and_true, Bool.and_eq_true, beq_iff_eq,
                    Bool.not_eq_true', beq_eq_false_iff_ne]
                  exact ⟨⟨hsub, hne⟩, hmod⟩
              | some f =>
                  simp only [Bool.and_eq_true, beq_iff_eq,
                    Bool.not_eq_true', beq_eq_false_iff_ne]
                  exact ⟨⟨⟨hsub, hne⟩, hmod⟩, hv f hval⟩
            · exact Or.inr hrest

/-- C9 witness: a two-module layout (one package directory, one plain
module holding the base, a subclass, and an import from elsewhere)
yields exactly the locally defined proper subclass. -/
theorem c9_flat_scanner_membership_witness :
    (⟨"DiskBackend", "pkg.disk", false, []⟩ : PClass) ∈
      discoverRegistryClasses
        [⟨"pkg.sub", true, some [⟨"Other", "pkg.sub", false, []⟩]⟩,
         ⟨"pkg.disk", false, some
           [⟨"StorageBackend", "pkg.base", false, []⟩,
            ⟨"DiskBackend", "pkg.disk", false, []⟩,
            ⟨"Imported", "pkg.other", false, []⟩]⟩]
        ⟨"StorageBackend", "pkg.base", false, []⟩
        (fun _ _ => true) [] none true ∧
    ¬ (⟨"Imported", "pkg.other", false, []⟩ : PClass) ∈
      discoverRegistryClasses
        [⟨"pkg.sub", true, some [⟨"Other", "pkg.sub", false, []⟩]⟩,
         ⟨"pkg.disk", false, some
           [⟨"StorageBackend", "pkg.base", false, []⟩,
            ⟨"DiskBackend", "pkg.disk", false, []⟩,
            ⟨"Imported", "pkg.other", false, []⟩]⟩]
        ⟨"StorageBackend", "pkg.base", false, []⟩
        (fun _ _ => true) [] none true := by
  constructor
  · exact (c9_flat_scanner_membership _ _ _ _ _).mpr
      ⟨⟨"pkg.disk", false, some
          [⟨"StorageBackend", "pkg.base", false, []⟩,
           ⟨"DiskBackend", "pkg.disk", false, []⟩,
           ⟨"Imported", "pkg.other", false, []⟩]⟩,
        by simp, rfl,
        [⟨"StorageBackend", "pkg.base", false, []⟩,
         ⟨"DiskBackend", "pkg.disk", false, []⟩,
         ⟨"Imported", "pkg.other", false, []⟩], rfl,
        by simp, rfl, by decide, rfl, fun f hf => by cases hf⟩
  · intro hmem
    obtain ⟨m, hm, hpk, objs, hobjs, -, -, -, hmod, -⟩ :=
      (c9_flat_scanner_membership _ _ _ _ _).mp hmem
    rcases List.mem_cons.mp hm with rfl | hm2
    · exact absurd hpk (by decide)
    · rcases List.mem_cons.mp hm2 with rfl | hm3
      · exact absurd hmod (by decide)
      · cases hm3
